import Mathlib

/-!
Verification of the run-polling and dispatch logic of `streamlit_app.py`
(a Streamlit front-end for a RAG PDF pipeline).

The embedding models, faithfully to the Python source:
  * `save_uploaded_pdf`   (file sink, lines 109-115),
  * `send_rag_query_event` (event dispatcher, lines 149-160),
  * `fetch_runs`           (run-status fetch, lines 165-170),
  * `wait_for_run_output`  (poll loop, lines 172-187),
  * the query-form handler  (lines 189-199).

External effects are made explicit: an HTTP response is a value, the
sequence of responses a poll loop observes is a list (one entry per
`fetch_runs` call; when the list runs out the model reports `outOfFuel`
rather than looping), and the wall clock is a function giving
`time.time() - start` at each timeout check.  The loop result is paired
with the number of fetches performed.
-/

/-- A JSON-compatible Python value, as handled by the app (dicts are
association lists in field order). -/
inductive Json where
  | null
  | str (s : String)
  | num (n : Int)
  | bool (b : Bool)
  | arr (xs : List Json)
  | obj (fields : List (String × Json))
  deriving Repr

/-- Python truthiness of a JSON-compatible value: `None`, `""`, `0`,
`False`, `[]`, `{}` are falsy, everything else truthy. -/
def Json.truthy : Json → Bool
  | .null => false
  | .str s => !(s == "")
  | .num n => !(n == 0)
  | .bool b => b
  | .arr xs => !xs.isEmpty
  | .obj fs => !fs.isEmpty

/-- Truthiness of an optional value (`None` for `none`). -/
def optTruthy : Option Json → Bool
  | none => false
  | some j => j.truthy

/-- A run record: a JSON object (Python dict), as returned in the
`data` array of the run-status endpoint. -/
abbrev Run := List (String × Json)

/-- Python `dict.get(key)`: the first binding of `key`, else `None`. -/
def dictGet (d : List (String × Json)) (key : String) : Option Json :=
  (d.find? (fun p => p.1 == key)).map (·.2)

/-- An HTTP response of `GET {api_base}/events/{event_id}/runs`, reduced
to the parts the code reads: the status code and the `"data"` field of
the JSON body (`none` when the body lacks the key, `some runs` when the
body maps `"data"` to the list `runs`). -/
structure Resp where
  status_code : Nat
  data? : Option (List Run)
  deriving Repr

/-- `requests.Response.raise_for_status` raises exactly for client and
server error codes, `400 <= code < 600`. -/
def raiseForStatusErrs (code : Nat) : Bool :=
  400 ≤ code && code < 600

/-- `fetch_runs` (lines 165-170): `resp.raise_for_status()` propagates an
HTTP error on 4xx/5xx; otherwise `data.get("data", [])` returns the
`"data"` field of the body, defaulting to the empty list. -/
def fetch_runs (resp : Resp) : Except Nat (List Run) :=
  if raiseForStatusErrs resp.status_code then
    .error resp.status_code
  else
    .ok (resp.data?.getD [])

/-- The terminal-success status labels of line 181. -/
def successStatuses : List String := ["Completed", "Succeeded", "Success", "Finished"]

/-- The terminal-failure status labels of line 183. -/
def failureStatuses : List String := ["Failed", "Cancelled"]

/-- Python `status in (labels...)`: equality of the (optional) status
value with one of the string labels; anything that is not one of those
strings (absent key, `None`, non-string value) compares unequal. -/
def statusIn (status : Option Json) (labels : List String) : Bool :=
  match status with
  | some (.str s) => labels.contains s
  | _ => false

/-- `run.get("output") or {}` (line 182): the output field when truthy,
else the empty mapping. -/
def orEmptyDict (o : Option Json) : Json :=
  match o with
  | some j => if j.truthy then j else .obj []
  | none => .obj []

/-- Outcome of one call of `wait_for_run_output`. -/
inductive PollResult where
  /-- Normal return of `run.get("output") or {}` (line 182). -/
  | success (output : Json)
  /-- `requests.HTTPError` propagated out of `fetch_runs`, carrying the
  response status code. -/
  | httpError (code : Nat)
  /-- `RuntimeError(f"Function run {status}")` (line 184), carrying the
  observed status value. -/
  | runFailed (status : Option Json)
  /-- `TimeoutError(... last status: {last_status})` (line 186), carrying
  the `last_status` variable (`none` mirrors Python `None`). -/
  | timeout (lastStatus : Option Json)
  /-- Model artefact: the supplied response list was exhausted before the
  loop exited (the real loop would keep polling). -/
  | outOfFuel
  deriving Repr

/-- The body of the `while True` loop of `wait_for_run_output`
(lines 175-187), iterated over the response list.  `i` counts the
iterations already done (so `elapsed i` is `time.time() - start` at the
timeout check of the current iteration), `ls` is the `last_status`
variable.  The returned `Nat` counts the `fetch_runs` calls performed. -/
def waitFrom (timeout_s : ℚ) (elapsed : ℕ → ℚ) :
    ℕ → Option Json → List Resp → PollResult × ℕ
  | _, _, [] => (.outOfFuel, 0)
  | i, ls, resp :: rest =>
    match fetch_runs resp with
    | .error code => (.httpError code, 1)
    | .ok runs =>
      match runs with
      | run :: _ =>
        let status := dictGet run "status"
        let ls' := if optTruthy status then status else ls
        if statusIn status successStatuses then
          (.success (orEmptyDict (dictGet run "output")), 1)
        else if statusIn status failureStatuses then
          (.runFailed status, 1)
        else if elapsed i > timeout_s then
          (.timeout ls', 1)
        else
          let r := waitFrom timeout_s elapsed (i + 1) ls' rest
          (r.1, r.2 + 1)
      | [] =>
        if elapsed i > timeout_s then
          (.timeout ls, 1)
        else
          let r := waitFrom timeout_s elapsed (i + 1) ls rest
          (r.1, r.2 + 1)

/-- `wait_for_run_output` (lines 172-187): start with `last_status = None`
and iterate the loop over the observed responses. -/
def wait_for_run_output (timeout_s : ℚ) (elapsed : ℕ → ℚ)
    (resps : List Resp) : PollResult × ℕ :=
  waitFrom timeout_s elapsed 0 none resps

/-! ### Analysis of one loop iteration -/

/-- What one iteration of the loop does with its response, before the
timeout check is consulted. -/
inductive PollStep where
  /-- Return `run.get("output") or {}`. -/
  | exitSuccess (out : Json)
  /-- Raise `RuntimeError` with the observed status. -/
  | exitFailure (status : Option Json)
  /-- Propagate the HTTP error of `raise_for_status`. -/
  | exitHttp (code : Nat)
  /-- Keep polling, having observed `status` from a first run
  (`none` when the run list was empty). -/
  | next (status : Option Json)

/-- Classification of a response by the loop body. -/
def pollStep (resp : Resp) : PollStep :=
  match fetch_runs resp with
  | .error code => .exitHttp code
  | .ok [] => .next none
  | .ok (run :: _) =>
    let status := dictGet run "status"
    if statusIn status successStatuses then
      .exitSuccess (orEmptyDict (dictGet run "output"))
    else if statusIn status failureStatuses then
      .exitFailure status
    else .next status

/-- Whether a classified step keeps polling. -/
def PollStep.isNext : PollStep → Bool
  | .next _ => true
  | _ => false

/-- The `last_status = status or last_status` update (line 180) performed
by an iteration that keeps polling; exits do not reach the update of any
later iteration. -/
def updLast (resp : Resp) (ls : Option Json) : Option Json :=
  match pollStep resp with
  | .next s => if optTruthy s then s else ls
  | _ => ls

/-- The value of `last_status` after a list of polled responses,
starting from `None`. -/
def lastObservedStatus (rs : List Resp) : Option Json :=
  rs.foldl (fun ls r => updLast r ls) none

/-- The loop iteration at index `i` neither exits nor times out: the
fetch succeeds, the run list is empty or its first run's status is
neither terminal-success nor terminal-failure, and the elapsed time does
not exceed the timeout. -/
def continuesAt (timeout_s : ℚ) (elapsed : ℕ → ℚ) (i : ℕ) (resp : Resp) : Prop :=
  (pollStep resp).isNext = true ∧ elapsed i ≤ timeout_s

instance (timeout_s : ℚ) (elapsed : ℕ → ℚ) (i : ℕ) (resp : Resp) :
    Decidable (continuesAt timeout_s elapsed i resp) := by
  unfold continuesAt; infer_instance

/-- The result produced by the first loop iteration that does not
continue, given the value `ls` of `last_status` before that iteration. -/
def exitResult (resp : Resp) (ls : Option Json) : PollResult :=
  match pollStep resp with
  | .exitHttp code => .httpError code
  | .exitSuccess out => .success out
  | .exitFailure s => .runFailed s
  | .next s => .timeout (if optTruthy s then s else ls)

lemma waitFrom_cons (T : ℚ) (e : ℕ → ℚ) (i : ℕ) (ls : Option Json)
    (resp : Resp) (rest : List Resp) :
    waitFrom T e i ls (resp :: rest) =
      match pollStep resp with
      | .exitHttp code => (.httpError code, 1)
      | .exitSuccess out => (.success out, 1)
      | .exitFailure s => (.runFailed s, 1)
      | .next s =>
        if e i > T then (.timeout (if optTruthy s then s else ls), 1)
        else ((waitFrom T e (i+1) (if optTruthy s then s else ls) rest).1,
              (waitFrom T e (i+1) (if optTruthy s then s else ls) rest).2 + 1) := by
  rw [waitFrom, pollStep]
  cases hfr : fetch_runs resp with
  | error code => simp
  | ok runs =>
    cases runs with
    | nil => simp [optTruthy]
    | cons run rs' =>
      by_cases hs : statusIn (dictGet run "status") successStatuses = true
      · simp [hs]
      · by_cases hf : statusIn (dictGet run "status") failureStatuses = true
        · simp [hs, hf]
        · by_cases ht : e i > T
          · simp [hs, hf, ht]
          · simp [hs, hf, ht]


lemma getCons0 {α : Type _} (a : α) (l : List α) (h : 0 < (a :: l).length) :
    (a :: l).get ⟨0, h⟩ = a := rfl

lemma getConsSucc {α : Type _} (a : α) (l : List α) (j : ℕ) (h : j + 1 < (a :: l).length) :
    (a :: l).get ⟨j + 1, h⟩ = l.get ⟨j, Nat.lt_of_succ_lt_succ h⟩ := rfl

theorem waitFrom_eq_iff (T : ℚ) (e : ℕ → ℚ) :
    ∀ (rs : List Resp) (k : ℕ) (ls : Option Json) (r : PollResult) (n : ℕ),
      r ≠ .outOfFuel →
      (waitFrom T e k ls rs = (r, n) ↔
        ∃ i, ∃ hi : i < rs.length,
          (∀ j (hj : j < i), continuesAt T e (k + j) (rs.get ⟨j, Nat.lt_trans hj hi⟩)) ∧
          ¬ continuesAt T e (k + i) (rs.get ⟨i, hi⟩) ∧
          r = exitResult (rs.get ⟨i, hi⟩) ((rs.take i).foldl (fun a x => updLast x a) ls) ∧
          n = i + 1) := by
  intro rs
  induction rs with
  | nil =>
    intro k ls r n hr
    constructor
    · intro h
      rw [waitFrom] at h
      rw [Prod.mk.injEq] at h
      exact absurd h.1.symm hr
    · rintro ⟨i, hi, -⟩
      exact absurd hi (Nat.not_lt_zero i)
  | cons resp rest ih =>
    intro k ls r n hr
    rw [waitFrom_cons]
    cases hstep : pollStep resp with
    | exitHttp code =>
      constructor
      · intro h
        rw [Prod.mk.injEq] at h
        refine ⟨0, Nat.succ_pos _, fun j hj => absurd hj (Nat.not_lt_zero j), ?_, ?_, h.2.symm⟩
        · rw [getCons0, continuesAt, hstep]
          rintro ⟨hnx, -⟩
          exact absurd hnx (by simp [PollStep.isNext])
        · rw [getCons0, List.take_zero, List.foldl_nil, exitResult, hstep, ← h.1]
      · rintro ⟨i, hi, hpre, hstop, hrr, hn⟩
        cases i with
        | zero =>
          rw [getCons0, List.take_zero, List.foldl_nil, exitResult, hstep] at hrr
          rw [hrr, hn]
        | succ i' =>
          have h0 := hpre 0 (Nat.succ_pos _)
          rw [getCons0, continuesAt, hstep] at h0
          exact absurd h0.1 (by simp [PollStep.isNext])
    | exitSuccess out =>
      constructor
      · intro h
        rw [Prod.mk.injEq] at h
        refine ⟨0, Nat.succ_pos _, fun j hj => absurd hj (Nat.not_lt_zero j), ?_, ?_, h.2.symm⟩
        · rw [getCons0, continuesAt, hstep]
          rintro ⟨hnx, -⟩
          exact absurd hnx (by simp [PollStep.isNext])
        · rw [getCons0, List.take_zero, List.foldl_nil, exitResult, hstep, ← h.1]
      · rintro ⟨i, hi, hpre, hstop, hrr, hn⟩
        cases i with
        | zero =>
          rw [getCons0, List.take_zero, List.foldl_nil, exitResult, hstep] at hrr
          rw [hrr, hn]
        | succ i' =>
          have h0 := hpre 0 (Nat.succ_pos _)
          rw [getCons0, continuesAt, hstep] at h0
          exact absurd h0.1 (by simp [PollStep.isNext])
    | exitFailure s =>
      constructor
      · intro h
        rw [Prod.mk.injEq] at h
        refine ⟨0, Nat.succ_pos _, fun j hj => absurd hj (Nat.not_lt_zero j), ?_, ?_, h.2.symm⟩
        · rw [getCons0, continuesAt, hstep]
          rintro ⟨hnx, -⟩
          exact absurd hnx (by simp [PollStep.isNext])
        · rw [getCons0, List.take_zero, List.foldl_nil, exitResult, hstep, ← h.1]
      · rintro ⟨i, hi, hpre, hstop, hrr, hn⟩
        cases i with
        | zero =>
          rw [getCons0, List.take_zero, List.foldl_nil, exitResult, hstep] at hrr
          rw [hrr, hn]
        | succ i' =>
          have h0 := hpre 0 (Nat.succ_pos _)
          rw [getCons0, continuesAt, hstep] at h0
          exact absurd h0.1 (by simp [PollStep.isNext])
    | next s =>
      dsimp only
      by_cases ht : e k > T
      · rw [if_pos ht]
        constructor
        · intro h
          rw [Prod.mk.injEq] at h
          refine ⟨0, Nat.succ_pos _, fun j hj => absurd hj (Nat.not_lt_zero j), ?_, ?_, h.2.symm⟩
          · rw [getCons0, continuesAt]
            rintro ⟨-, hle⟩
            exact absurd ht (not_lt.mpr hle)
          · rw [getCons0, List.take_zero, List.foldl_nil, exitResult, hstep, ← h.1]
        · rintro ⟨i, hi, hpre, hstop, hrr, hn⟩
          cases i with
          | zero =>
            rw [getCons0, List.take_zero, List.foldl_nil, exitResult, hstep] at hrr
            rw [hrr, hn]
          | succ i' =>
            have h0 := hpre 0 (Nat.succ_pos _)
            rw [getCons0, continuesAt] at h0
            exact absurd ht (not_lt.mpr h0.2)
      · rw [if_neg ht]
        have hcont0 : continuesAt T e (k + 0) resp := by
          rw [continuesAt]
          exact ⟨by simp [hstep, PollStep.isNext], not_lt.mp ht⟩
        constructor
        · intro h
          rw [Prod.mk.injEq] at h
          obtain ⟨h1, h2⟩ := h
          have hw : waitFrom T e (k + 1) (if optTruthy s then s else ls) rest
              = (r, (waitFrom T e (k + 1) (if optTruthy s then s else ls) rest).2) := by
            rw [← h1]
          obtain ⟨i, hi, hpre, hstop, hrr, hm⟩ :=
            (ih (k + 1) (if optTruthy s then s else ls) r _ hr).mp hw
          refine ⟨i + 1, Nat.succ_lt_succ hi, ?_, ?_, ?_, ?_⟩
          · intro j hj
            cases j with
            | zero =>
              rw [getCons0]
              exact hcont0
            | succ j' =>
              rw [getConsSucc]
              have heq : k + (j' + 1) = k + 1 + j' := by omega
              rw [heq]
              exact hpre j' (Nat.lt_of_succ_lt_succ hj)
          · rw [getConsSucc]
            have heq : k + (i + 1) = k + 1 + i := by omega
            rw [heq]
            exact hstop
          · rw [getConsSucc, List.take_succ_cons, List.foldl_cons]
            have hupd : updLast resp ls = if optTruthy s then s else ls := by
              rw [updLast, hstep]
            rw [hupd]
            exact hrr
          · omega
        · rintro ⟨i, hi, hpre, hstop, hrr, hn⟩
          cases i with
          | zero =>
            rw [getCons0] at hstop
            exact absurd hcont0 hstop
          | succ i' =>
            have hi' : i' < rest.length := Nat.lt_of_succ_lt_succ hi
            have hrest : waitFrom T e (k + 1) (if optTruthy s then s else ls) rest
                = (r, i' + 1) := by
              refine (ih (k + 1) (if optTruthy s then s else ls) r (i' + 1) hr).mpr
                ⟨i', hi', ?_, ?_, ?_, rfl⟩
              · intro j hj
                have hj1 := hpre (j + 1) (Nat.succ_lt_succ hj)
                rw [getConsSucc] at hj1
                have heq : k + (j + 1) = k + 1 + j := by omega
                rw [heq] at hj1
                exact hj1
              · have heq : k + (i' + 1) = k + 1 + i' := by omega
                rw [getConsSucc, heq] at hstop
                exact hstop
              · rw [getConsSucc, List.take_succ_cons, List.foldl_cons] at hrr
                have hupd : updLast resp ls = if optTruthy s then s else ls := by
                  rw [updLast, hstep]
                rw [hupd] at hrr
                exact hrr
            rw [hrest, Prod.mk.injEq]
            exact ⟨rfl, by show i' + 1 + 1 = n; omega⟩

/-! ### Source-level readings of the step classification -/

/-- The terminal-success and terminal-failure label sets are disjoint. -/
lemma statusIn_success_failure_false (st : Option Json) :
    statusIn st successStatuses = true → statusIn st failureStatuses = false := by
  intro hs
  cases st with
  | none => simp [statusIn] at hs
  | some j =>
    cases j with
    | str s =>
      simp only [statusIn] at hs ⊢
      have hmem : s = "Completed" ∨ s = "Succeeded" ∨ s = "Success" ∨ s = "Finished" := by
        simpa [successStatuses] using hs
      rcases hmem with rfl | rfl | rfl | rfl <;> rfl
    | null => simp [statusIn]
    | num n => simp [statusIn]
    | bool b => simp [statusIn]
    | arr xs => simp [statusIn]
    | obj fs => simp [statusIn]

/-- A step propagates an HTTP error exactly when the fetch does. -/
lemma pollStep_exitHttp_iff (resp : Resp) (code : ℕ) :
    pollStep resp = .exitHttp code ↔ fetch_runs resp = .error code := by
  rw [pollStep]
  cases hfr : fetch_runs resp with
  | error c => simp
  | ok runs =>
    cases runs with
    | nil => simp
    | cons run rs =>
      by_cases hs : statusIn (dictGet run "status") successStatuses = true
      · simp [hs]
      · by_cases hf : statusIn (dictGet run "status") failureStatuses = true
        · simp [hs, hf]
        · simp [hs, hf]

/-- A step exits successfully exactly when the fetch succeeds, the run
list is non-empty, and the first run's status is a terminal-success
label; the returned mapping is `run.get("output") or {}`. -/
lemma pollStep_exitSuccess_iff (resp : Resp) (out : Json) :
    pollStep resp = .exitSuccess out ↔
      ∃ run rest, fetch_runs resp = .ok (run :: rest) ∧
        statusIn (dictGet run "status") successStatuses = true ∧
        orEmptyDict (dictGet run "output") = out := by
  rw [pollStep]
  cases hfr : fetch_runs resp with
  | error c => simp
  | ok runs =>
    cases runs with
    | nil => simp
    | cons run rs =>
      by_cases hs : statusIn (dictGet run "status") successStatuses = true
      · simp [hs]
      · by_cases hf : statusIn (dictGet run "status") failureStatuses = true
        · simp [hs, hf]
        · simp [hs, hf]

/-- A step raises `RuntimeError` exactly when the fetch succeeds, the
run list is non-empty, and the first run's status is a terminal-failure
label; the raised error carries that status. -/
lemma pollStep_exitFailure_iff (resp : Resp) (st : Option Json) :
    pollStep resp = .exitFailure st ↔
      ∃ run rest, fetch_runs resp = .ok (run :: rest) ∧
        dictGet run "status" = st ∧
        statusIn (dictGet run "status") failureStatuses = true := by
  rw [pollStep]
  cases hfr : fetch_runs resp with
  | error c => simp
  | ok runs =>
    cases runs with
    | nil => simp
    | cons run rs =>
      by_cases hs : statusIn (dictGet run "status") successStatuses = true
      · simp [hs, statusIn_success_failure_false _ hs]
      · by_cases hf : statusIn (dictGet run "status") failureStatuses = true
        · simp [hs, hf]
        · simp [hs, hf]

/-- A step keeps polling exactly when the fetch succeeds and either the
run list is empty (no status observed) or the first run's status is
neither a terminal-success nor a terminal-failure label. -/
lemma pollStep_next_iff (resp : Resp) (st : Option Json) :
    pollStep resp = .next st ↔
      (fetch_runs resp = .ok [] ∧ st = none) ∨
      (∃ run rest, fetch_runs resp = .ok (run :: rest) ∧
        dictGet run "status" = st ∧
        statusIn (dictGet run "status") successStatuses = false ∧
        statusIn (dictGet run "status") failureStatuses = false) := by
  rw [pollStep]
  cases hfr : fetch_runs resp with
  | error c => simp
  | ok runs =>
    cases runs with
    | nil =>
      dsimp only
      constructor
      · intro h
        exact Or.inl ⟨rfl, (PollStep.next.injEq _ _ ▸ h).symm⟩
      · rintro (⟨-, rfl⟩ | ⟨run, rest, hcontra, -⟩)
        · rfl
        · exact absurd hcontra (by simp)
      
    | cons run rs =>
      by_cases hs : statusIn (dictGet run "status") successStatuses = true
      · simp [hs]
      · by_cases hf : statusIn (dictGet run "status") failureStatuses = true
        · simp [hs, hf]
        · simp [hs, hf, eq_false_of_ne_true hs, eq_false_of_ne_true hf]

/-- The first non-continuing iteration returns the output mapping
exactly when its step is a success exit. -/
lemma exitResult_eq_success_iff (resp : Resp) (ls : Option Json) (out : Json) :
    exitResult resp ls = .success out ↔ pollStep resp = .exitSuccess out := by
  rw [exitResult]
  cases h : pollStep resp <;> simp

/-- The first non-continuing iteration raises `RuntimeError` exactly
when its step is a failure exit. -/
lemma exitResult_eq_runFailed_iff (resp : Resp) (ls st : Option Json) :
    exitResult resp ls = .runFailed st ↔ pollStep resp = .exitFailure st := by
  rw [exitResult]
  cases h : pollStep resp <;> simp

/-- The first non-continuing iteration propagates an HTTP error exactly
when its step is an HTTP-error exit. -/
lemma exitResult_eq_httpError_iff (resp : Resp) (ls : Option Json) (code : ℕ) :
    exitResult resp ls = .httpError code ↔ pollStep resp = .exitHttp code := by
  rw [exitResult]
  cases h : pollStep resp <;> simp

/-- The first non-continuing iteration raises `TimeoutError` exactly
when its step keeps polling (so only the clock stopped it), and the
error carries `last_status` as updated by that iteration. -/
lemma exitResult_eq_timeout_iff (resp : Resp) (ls l : Option Json) :
    exitResult resp ls = .timeout l ↔
      (pollStep resp).isNext = true ∧ updLast resp ls = l := by
  rw [exitResult, updLast]
  cases h : pollStep resp <;> simp [PollStep.isNext]

/-! ### Concrete polling scenarios from the spec -/

/-- An HTTP 200 response whose body's `data` field holds `runs`. -/
def okResp (runs : List Run) : Resp := ⟨200, some runs⟩

/-- A run with the non-terminal status `"Running"`. -/
def runningRun : Run := [("status", Json.str "Running")]

/-- A run with the terminal-failure status `"Failed"`. -/
def failedRun : Run := [("status", Json.str "Failed")]

/-- The answer mapping `{"answer": "42", "sources": ["doc.pdf"]}`. -/
def answerOut : Json :=
  Json.obj [("answer", Json.str "42"), ("sources", Json.arr [Json.str "doc.pdf"])]

/-- The completed run of the spec's query scenario. -/
def completedRun : Run := [("status", Json.str "Completed"), ("output", answerOut)]

/-- The idealized clock of a poll loop with interval 0.5 s and
instantaneous fetches: `time.time() - start` is `i/2` at the check of
iteration `i`. -/
def halfSecondClock : ℕ → ℚ := fun i => mkRat i 2

/-- The spec's query scenario: two `"Running"` polls, then
`"Completed"` with the answer output. -/
def scenarioC5 : List Resp :=
  [okResp [runningRun], okResp [runningRun], okResp [completedRun]]

/-- The spec's timeout scenario: every poll returns an empty run list
(four polls fit in a 1.0 s timeout at interval 0.5 s). -/
def emptyPolls : List Resp := List.replicate 4 (okResp [])

/-- An error response and a preceding running poll. -/
def scenario500 : List Resp := [okResp [runningRun], ⟨500, some []⟩]

/-- A failing run after a running poll. -/
def scenarioFail : List Resp := [okResp [runningRun], okResp [failedRun]]

/-- The poll loop consumes a response only through `fetch_runs`. -/
lemma waitFrom_congr_fetch (T : ℚ) (e : ℕ → ℚ) :
    ∀ (rs₁ rs₂ : List Resp) (k : ℕ) (ls : Option Json),
      rs₁.map fetch_runs = rs₂.map fetch_runs →
      waitFrom T e k ls rs₁ = waitFrom T e k ls rs₂ := by
  intro rs₁
  induction rs₁ with
  | nil =>
    intro rs₂ k ls h
    cases rs₂ with
    | nil => rfl
    | cons b bs => exact absurd h (by simp)
  | cons a as ih =>
    intro rs₂ k ls h
    cases rs₂ with
    | nil => exact absurd h (by simp)
    | cons b bs =>
      rw [List.map_cons, List.map_cons, List.cons.injEq] at h
      have hps : pollStep a = pollStep b := by rw [pollStep, pollStep, h.1]
      rw [waitFrom_cons, waitFrom_cons, hps]
      cases pollStep b with
      | exitSuccess out => rfl
      | exitFailure st => rfl
      | exitHttp code => rfl
      | next s =>
        dsimp only
        rw [ih bs (k + 1) (if optTruthy s then s else ls) h.2]

/-! ### Claims about the Run Poller -/

/-- C1: `wait_for_run_output` returns an output mapping `out` (after `n`
fetches) if and only if there is a poll index `i` such that every
earlier poll continued the loop, the fetch at `i` returned a non-empty
run list whose first run's status is one of
{"Completed","Succeeded","Success","Finished"}, `out` is that run's
`output` field made into `{}` when absent (or falsy), and `n = i + 1`;
in particular it never returns successfully off a non-terminal first
status, and an absent `output` field yields the empty mapping. -/
theorem c1_success_iff_first_terminal (T : ℚ) (e : ℕ → ℚ) (rs : List Resp)
    (out : Json) (n : ℕ) :
    (wait_for_run_output T e rs = (.success out, n) ↔
      ∃ i, ∃ hi : i < rs.length,
        (∀ j (hj : j < i), continuesAt T e j (rs.get ⟨j, Nat.lt_trans hj hi⟩)) ∧
        (∃ run rest, fetch_runs (rs.get ⟨i, hi⟩) = .ok (run :: rest) ∧
          statusIn (dictGet run "status") successStatuses = true ∧
          orEmptyDict (dictGet run "output") = out) ∧
        n = i + 1) ∧
    orEmptyDict none = Json.obj [] := by
  refine ⟨?_, rfl⟩
  rw [wait_for_run_output,
    waitFrom_eq_iff T e rs 0 none (.success out) n (by simp)]
  constructor
  · rintro ⟨i, hi, hpre, hstop, hrr, hn⟩
    refine ⟨i, hi, ?_, ?_, hn⟩
    · intro j hj
      have h := hpre j hj
      rwa [Nat.zero_add] at h
    · exact (pollStep_exitSuccess_iff _ _).mp
        ((exitResult_eq_success_iff _ _ _).mp hrr.symm)
  · rintro ⟨i, hi, hpre, hexit, hn⟩
    have hps : pollStep (rs.get ⟨i, hi⟩) = .exitSuccess out :=
      (pollStep_exitSuccess_iff _ _).mpr hexit
    refine ⟨i, hi, ?_, ?_, ?_, hn⟩
    · intro j hj
      rw [Nat.zero_add]
      exact hpre j hj
    · rw [continuesAt]
      rintro ⟨hnx, -⟩
      rw [hps] at hnx
      exact absurd hnx (by simp [PollStep.isNext])
    · exact ((exitResult_eq_success_iff _ _ _).mpr hps).symm

/-- C1 witness: the three-poll scenario instantiates the success
characterization at `i = 2`. -/
theorem c1_success_iff_first_terminal_witness :
    ∃ i, ∃ hi : i < scenarioC5.length,
      (∀ j (hj : j < i),
        continuesAt 120 halfSecondClock j (scenarioC5.get ⟨j, Nat.lt_trans hj hi⟩)) ∧
      (∃ run rest, fetch_runs (scenarioC5.get ⟨i, hi⟩) = .ok (run :: rest) ∧
        statusIn (dictGet run "status") successStatuses = true ∧
        orEmptyDict (dictGet run "output") = answerOut) ∧
      (3 : ℕ) = i + 1 :=
  ((c1_success_iff_first_terminal 120 halfSecondClock scenarioC5 answerOut 3).1).mp rfl

/-- C2 (amended): `wait_for_run_output` fails with Timeout (after `n`
fetches) if and only if there is a poll index `i` such that every
earlier poll continued the loop, the poll at `i` observed neither a
terminal status nor an HTTP error, and the elapsed time at check `i`
STRICTLY exceeded `timeout_s`; the Timeout carries the `last_status`
value — the last truthy status observed, and `none` (Python's `None`,
not the string "unknown") when no status was ever observed. -/
theorem c2_timeout_iff_elapsed_exceeded (T : ℚ) (e : ℕ → ℚ) (rs : List Resp)
    (l : Option Json) (n : ℕ) :
    wait_for_run_output T e rs = (.timeout l, n) ↔
      ∃ i, ∃ hi : i < rs.length,
        (∀ j (hj : j < i), continuesAt T e j (rs.get ⟨j, Nat.lt_trans hj hi⟩)) ∧
        (pollStep (rs.get ⟨i, hi⟩)).isNext = true ∧
        T < e i ∧
        updLast (rs.get ⟨i, hi⟩) (lastObservedStatus (rs.take i)) = l ∧
        n = i + 1 := by
  rw [wait_for_run_output,
    waitFrom_eq_iff T e rs 0 none (.timeout l) n (by simp)]
  simp only [lastObservedStatus]
  constructor
  · rintro ⟨i, hi, hpre, hstop, hrr, hn⟩
    obtain ⟨hnx, hupd⟩ := (exitResult_eq_timeout_iff _ _ _).mp hrr.symm
    refine ⟨i, hi, ?_, hnx, ?_, hupd, hn⟩
    · intro j hj
      have h := hpre j hj
      rwa [Nat.zero_add] at h
    · rw [continuesAt] at hstop
      rw [Nat.zero_add] at hstop
      by_contra hT
      exact hstop ⟨hnx, not_lt.mp hT⟩
  · rintro ⟨i, hi, hpre, hnx, hT, hupd, hn⟩
    refine ⟨i, hi, ?_, ?_, ?_, hn⟩
    · intro j hj
      rw [Nat.zero_add]
      exact hpre j hj
    · rw [continuesAt]
      rintro ⟨-, hle⟩
      rw [Nat.zero_add] at hle
      exact absurd hT (not_lt.mpr hle)
    · exact ((exitResult_eq_timeout_iff _ _ _).mpr ⟨hnx, hupd⟩).symm

/-- C2 witness: four empty polls against a 1.0 s timeout at interval
0.5 s instantiate the timeout characterization at `i = 3`. -/
theorem c2_timeout_iff_elapsed_exceeded_witness :
    ∃ i, ∃ hi : i < emptyPolls.length,
      (∀ j (hj : j < i),
        continuesAt 1 halfSecondClock j (emptyPolls.get ⟨j, Nat.lt_trans hj hi⟩)) ∧
      (pollStep (emptyPolls.get ⟨i, hi⟩)).isNext = true ∧
      (1 : ℚ) < halfSecondClock i ∧
      updLast (emptyPolls.get ⟨i, hi⟩) (lastObservedStatus (emptyPolls.take i)) = none ∧
      (4 : ℕ) = i + 1 :=
  (c2_timeout_iff_elapsed_exceeded 1 halfSecondClock emptyPolls none 4).mp rfl

/-- C2 counterexample: in the spec scenario (every poll returns an empty
run list, timeout 1.0 s, poll interval 0.5 s) the code's Timeout error
carries `last_status = None`, not the string "unknown". -/
theorem c2_timeout_unknown_counterexample :
    wait_for_run_output 1 halfSecondClock emptyPolls = (.timeout none, 4) ∧
    PollResult.timeout none ≠ PollResult.timeout (some (Json.str "unknown")) := by
  refine ⟨rfl, ?_⟩
  intro h
  rw [PollResult.timeout.injEq] at h
  exact Option.noConfusion h

/-- C3: `wait_for_run_output` raises `RuntimeError` carrying status `st`
(after `n` fetches) if and only if there is a poll index `i` such that
every earlier poll continued the loop and the fetch at `i` returned a
non-empty run list whose first run's status `st` is `"Failed"` or
`"Cancelled"`; `n = i + 1`, so no further poll happens after the
raise. -/
theorem c3_runFailed_iff_first_failure (T : ℚ) (e : ℕ → ℚ) (rs : List Resp)
    (st : Option Json) (n : ℕ) :
    wait_for_run_output T e rs = (.runFailed st, n) ↔
      ∃ i, ∃ hi : i < rs.length,
        (∀ j (hj : j < i), continuesAt T e j (rs.get ⟨j, Nat.lt_trans hj hi⟩)) ∧
        (∃ run rest, fetch_runs (rs.get ⟨i, hi⟩) = .ok (run :: rest) ∧
          dictGet run "status" = st ∧
          statusIn (dictGet run "status") failureStatuses = true) ∧
        n = i + 1 := by
  rw [wait_for_run_output,
    waitFrom_eq_iff T e rs 0 none (.runFailed st) n (by simp)]
  constructor
  · rintro ⟨i, hi, hpre, hstop, hrr, hn⟩
    refine ⟨i, hi, ?_, ?_, hn⟩
    · intro j hj
      have h := hpre j hj
      rwa [Nat.zero_add] at h
    · exact (pollStep_exitFailure_iff _ _).mp
        ((exitResult_eq_runFailed_iff _ _ _).mp hrr.symm)
  · rintro ⟨i, hi, hpre, hexit, hn⟩
    have hps : pollStep (rs.get ⟨i, hi⟩) = .exitFailure st :=
      (pollStep_exitFailure_iff _ _).mpr hexit
    refine ⟨i, hi, ?_, ?_, ?_, hn⟩
    · intro j hj
      rw [Nat.zero_add]
      exact hpre j hj
    · rw [continuesAt]
      rintro ⟨hnx, -⟩
      rw [hps] at hnx
      exact absurd hnx (by simp [PollStep.isNext])
    · exact ((exitResult_eq_runFailed_iff _ _ _).mpr hps).symm

/-- C3 witness: a `"Running"` poll followed by a `"Failed"` poll
instantiates the failure characterization at `i = 1`. -/
theorem c3_runFailed_iff_first_failure_witness :
    ∃ i, ∃ hi : i < scenarioFail.length,
      (∀ j (hj : j < i),
        continuesAt 120 halfSecondClock j (scenarioFail.get ⟨j, Nat.lt_trans hj hi⟩)) ∧
      (∃ run rest, fetch_runs (scenarioFail.get ⟨i, hi⟩) = .ok (run :: rest) ∧
        dictGet run "status" = some (Json.str "Failed") ∧
        statusIn (dictGet run "status") failureStatuses = true) ∧
      (2 : ℕ) = i + 1 :=
  (c3_runFailed_iff_first_failure 120 halfSecondClock scenarioFail
    (some (Json.str "Failed")) 2).mp rfl

/-- C5: with the first two polls returning a first run with status
`"Running"` and the third returning `"Completed"` with output
`{"answer":"42","sources":["doc.pdf"]}` (default timeout 120 s, poll
interval 0.5 s), `wait_for_run_output` returns that mapping after
exactly 3 fetches of the run list. -/
theorem c5_three_polls_scenario :
    wait_for_run_output 120 halfSecondClock scenarioC5 =
      (.success answerOut, 3) := rfl

/-- C7: a poll whose run-list fetch receives an error HTTP status (the
4xx/5xx codes `raise_for_status` raises on) propagates the HTTP error
immediately: `fetch_runs` fails with that code, and — when the polls
before it all continued the loop — the whole wait aborts with that
error at that very poll, performing no further fetch. -/
theorem c7_http_error_aborts (T : ℚ) (e : ℕ → ℚ) (rs : List Resp) (i : ℕ)
    (hi : i < rs.length)
    (hpre : ∀ j (hj : j < i), continuesAt T e j (rs.get ⟨j, Nat.lt_trans hj hi⟩))
    (herr : raiseForStatusErrs (rs.get ⟨i, hi⟩).status_code = true) :
    fetch_runs (rs.get ⟨i, hi⟩) = .error (rs.get ⟨i, hi⟩).status_code ∧
    wait_for_run_output T e rs =
      (.httpError (rs.get ⟨i, hi⟩).status_code, i + 1) := by
  have hfr : fetch_runs (rs.get ⟨i, hi⟩) = .error (rs.get ⟨i, hi⟩).status_code := by
    rw [fetch_runs, if_pos herr]
  refine ⟨hfr, ?_⟩
  have hps : pollStep (rs.get ⟨i, hi⟩) = .exitHttp (rs.get ⟨i, hi⟩).status_code :=
    (pollStep_exitHttp_iff _ _).mpr hfr
  rw [wait_for_run_output,
    waitFrom_eq_iff T e rs 0 none (.httpError (rs.get ⟨i, hi⟩).status_code) (i + 1)
      (by simp)]
  refine ⟨i, hi, ?_, ?_, ?_, rfl⟩
  · intro j hj
    rw [Nat.zero_add]
    exact hpre j hj
  · rw [continuesAt]
    rintro ⟨hnx, -⟩
    rw [hps] at hnx
    exact absurd hnx (by simp [PollStep.isNext])
  · exact ((exitResult_eq_httpError_iff _ _ _).mpr hps).symm

/-- C7 witness: a `"Running"` poll followed by an HTTP 500 response
aborts the wait with the propagated error after the second fetch. -/
theorem c7_http_error_aborts_witness :
    fetch_runs (scenario500.get ⟨1, by decide⟩) =
      .error (scenario500.get ⟨1, by decide⟩).status_code ∧
    wait_for_run_output 120 halfSecondClock scenario500 =
      (.httpError (scenario500.get ⟨1, by decide⟩).status_code, 2) :=
  c7_http_error_aborts 120 halfSecondClock scenario500 1 (by decide)
    (fun j hj =>
      match j, hj with
      | 0, _ => by
        rw [continuesAt]
        exact ⟨by rfl, by decide⟩)
    (by rfl)

/-- C9: the loop always fetches before it checks the clock, and the
timeout comparison is strict (`time.time() - start > timeout_s`): a
first poll whose first run is already terminal is returned (success)
or raised (failure) normally for EVERY timeout, 0 included, and a
timeout can only be reported when the elapsed time at its check
strictly exceeds `timeout_s`. -/
theorem c9_fetch_precedes_strict_timeout (T : ℚ) (e : ℕ → ℚ) (resp : Resp)
    (rest : List Resp) :
    (∀ out, pollStep resp = .exitSuccess out →
      wait_for_run_output T e (resp :: rest) = (.success out, 1)) ∧
    (∀ st, pollStep resp = .exitFailure st →
      wait_for_run_output T e (resp :: rest) = (.runFailed st, 1)) ∧
    (∀ l n, wait_for_run_output T e (resp :: rest) = (.timeout l, n) →
      T < e (n - 1)) := by
  refine ⟨?_, ?_, ?_⟩
  · intro out hstep
    rw [wait_for_run_output, waitFrom_cons, hstep]
  · intro st hstep
    rw [wait_for_run_output, waitFrom_cons, hstep]
  · intro l n h
    rw [wait_for_run_output,
      waitFrom_eq_iff T e (resp :: rest) 0 none (.timeout l) n (by simp)] at h
    obtain ⟨i, hi, hpre, hstop, hrr, hn⟩ := h
    obtain ⟨hnx, -⟩ := (exitResult_eq_timeout_iff _ _ _).mp hrr.symm
    rw [continuesAt, Nat.zero_add] at hstop
    have hT : T < e i := by
      by_contra hTc
      exact hstop ⟨hnx, not_lt.mp hTc⟩
    have hni : n - 1 = i := by omega
    rwa [hni]

/-- C9 witness: with `timeout_s = 0` and a clock already past the
timeout, a first poll that is already `"Completed"` is still returned
normally after one fetch. -/
theorem c9_fetch_precedes_strict_timeout_witness :
    wait_for_run_output 0 (fun _ => 5) [okResp [completedRun]] =
      (.success answerOut, 1) :=
  (c9_fetch_precedes_strict_timeout 0 (fun _ => 5) (okResp [completedRun]) []).1
    answerOut (by rfl)

/-- C10: an HTTP-successful response whose JSON body has no `"data"`
key makes `fetch_runs` return the empty list instead of failing — the
same value as for a body carrying `data: []` — and the poll loop
consumes responses only through `fetch_runs`, so the poller treats such
a response exactly like an empty run list. -/
theorem c10_missing_data_is_empty_list :
    (∀ resp : Resp, raiseForStatusErrs resp.status_code = false →
      resp.data? = none → fetch_runs resp = .ok []) ∧
    (∀ code : ℕ, raiseForStatusErrs code = false →
      fetch_runs ⟨code, none⟩ = fetch_runs ⟨code, some []⟩) ∧
    (∀ (T : ℚ) (e : ℕ → ℚ) (rs₁ rs₂ : List Resp),
      rs₁.map fetch_runs = rs₂.map fetch_runs →
      wait_for_run_output T e rs₁ = wait_for_run_output T e rs₂) := by
  refine ⟨?_, ?_, ?_⟩
  · intro resp hok hdata
    rw [fetch_runs, if_neg (by rw [hok]; exact Bool.false_ne_true), hdata]
    rfl
  · intro code hok
    rw [fetch_runs, fetch_runs]
    rw [if_neg (by rw [hok]; exact Bool.false_ne_true),
      if_neg (by rw [hok]; exact Bool.false_ne_true)]
    rfl
  · intro T e rs₁ rs₂ h
    rw [wait_for_run_output, wait_for_run_output]
    exact waitFrom_congr_fetch T e rs₁ rs₂ 0 none h

/-- C10 witness: a 200 response with no `"data"` key yields the empty
run list. -/
theorem c10_missing_data_is_empty_list_witness :
    fetch_runs ⟨200, none⟩ = .ok [] :=
  c10_missing_data_is_empty_list.1 ⟨200, none⟩ rfl rfl

/-! ### File sink: `save_uploaded_pdf` (lines 109-115) -/

/-- Local filesystem state: the directories that exist and a map from
path to file bytes. -/
structure FS where
  dirs : List String
  files : List (String × List Nat)

/-- `Path.mkdir(parents=True, exist_ok=True)`: create the directory if
absent; no error and no change when it already exists. -/
def FS.mkdirP (fs : FS) (d : String) : FS :=
  if fs.dirs.contains d then fs else { fs with dirs := d :: fs.dirs }

/-- `Path.write_bytes`: (over)write the full byte content at `p`,
silently replacing any file already there. -/
def FS.write (fs : FS) (p : String) (bytes : List Nat) : FS :=
  { fs with files := (p, bytes) :: fs.files.eraseP (fun q => q.1 == p) }

/-- Read back a path's content. -/
def FS.read (fs : FS) (p : String) : Option (List Nat) :=
  (fs.files.find? (fun q => q.1 == p)).map (·.2)

/-- Whether a POSIX path string is absolute (starts with `/`). -/
def isAbsolutePath (s : String) : Bool :=
  match s.data with
  | [] => false
  | c :: _ => c == '/'

/-- `pathlib`'s `/` operator: an absolute right operand replaces the
left one; otherwise the parts are joined with a separator. -/
def pathJoin (a b : String) : String :=
  if isAbsolutePath b then b else a ++ "/" ++ b

/-- `Path.resolve()` against a working directory `cwd`: an absolute
path is kept, a relative one is anchored at `cwd`. -/
def resolvePath (cwd p : String) : String :=
  if isAbsolutePath p then p else cwd ++ "/" ++ p

/-- An uploaded file as Streamlit hands it to the app: a name and the
buffer of bytes. -/
structure UploadedFile where
  name : String
  bytes : List Nat

/-- `save_uploaded_pdf` (lines 109-115): create `uploads/`, write the
buffer to `uploads / file.name`, and return that path (as built, not
resolved). -/
def save_uploaded_pdf (file : UploadedFile) (fs : FS) : FS × String :=
  let uploads_dir := "uploads"
  let fs₁ := fs.mkdirP uploads_dir
  let file_path := pathJoin uploads_dir file.name
  let fs₂ := fs₁.write file_path file.bytes
  (fs₂, file_path)

/-- C4 (amended): for every uploaded file, `save_uploaded_pdf` creates
the `uploads` directory if absent, writes the full byte content to
`uploads / filename` silently overwriting any file already at that
path, and returns that relative path itself — NOT its resolved absolute
form (the resolution happens later, in the ingest-event payload). -/
theorem c4_save_writes_and_returns_relative_path (file : UploadedFile) (fs : FS) :
    (save_uploaded_pdf file fs).1.dirs.contains "uploads" = true ∧
    (save_uploaded_pdf file fs).1.read (pathJoin "uploads" file.name) =
      some file.bytes ∧
    (save_uploaded_pdf file fs).2 = pathJoin "uploads" file.name := by
  refine ⟨?_, ?_, rfl⟩
  · rw [save_uploaded_pdf]
    dsimp only
    rw [FS.write, FS.mkdirP]
    by_cases h : fs.dirs.contains "uploads" = true
    · rw [if_pos h]
      exact h
    · rw [if_neg h]
      dsimp only
      rw [List.contains_cons]
      simp
  · rw [save_uploaded_pdf]
    dsimp only
    rw [FS.write, FS.read]
    dsimp only
    rw [List.find?]
    simp

/-- C4 counterexample: saving `doc.pdf` into an empty filesystem
returns `"uploads/doc.pdf"`, whose resolved absolute form under a
working directory `/app` is `"/app/uploads/doc.pdf"` — the returned
path is not the resolved absolute path. -/
theorem c4_returns_relative_not_absolute_counterexample :
    (save_uploaded_pdf ⟨"doc.pdf", [37, 80, 68, 70]⟩ ⟨[], []⟩).2 =
      "uploads/doc.pdf" ∧
    resolvePath "/app" "uploads/doc.pdf" = "/app/uploads/doc.pdf" ∧
    (save_uploaded_pdf ⟨"doc.pdf", [37, 80, 68, 70]⟩ ⟨[], []⟩).2 ≠
      resolvePath "/app"
        (save_uploaded_pdf ⟨"doc.pdf", [37, 80, 68, 70]⟩ ⟨[], []⟩).2 := by
  refine ⟨rfl, rfl, ?_⟩
  intro h
  exact absurd h (by decide)

/-! ### Event dispatcher: `send_rag_query_event` (lines 149-160) -/

/-- The event record built by `send_rag_query_event`: name
`rag/query_pdf_ai` with payload `{question, top_k}`. -/
structure QueryEvent where
  name : String
  question : String
  top_k : Int

/-- Outcome of `client.send`: a raised transport/HTTP failure, or the
list of event ids acknowledged by the engine. -/
inductive SendOutcome where
  | exc
  | acked (ids : List String)

/-- An error propagating out of `send_rag_query_event`: the client
failure itself, or the `IndexError` of `result[0]` on an empty
acknowledgment list. -/
inductive DispatchErr where
  | sendFailed
  | indexError
  deriving Repr, DecidableEq

/-- `send_rag_query_event` (lines 149-160): build the
`rag/query_pdf_ai` event from `question` and `top_k`, submit it via
`client.send`, and return `result[0]` — the first acknowledged event
id. -/
def send_rag_query_event (question : String) (top_k : Int)
    (send : QueryEvent → SendOutcome) : Except DispatchErr String :=
  match send ⟨"rag/query_pdf_ai", question, top_k⟩ with
  | .exc => .error .sendFailed
  | .acked [] => .error .indexError
  | .acked (eid :: _) => .ok eid

/-- C8: `send_rag_query_event` returns exactly the first event id the
submission call acknowledges, and fails with a propagating error when
the submission call itself fails or when the engine acknowledges zero
events. -/
theorem c8_dispatch_first_ack (question : String) (top_k : Int)
    (send : QueryEvent → SendOutcome) :
    (∀ eid, send_rag_query_event question top_k send = .ok eid ↔
      ∃ rest, send ⟨"rag/query_pdf_ai", question, top_k⟩ = .acked (eid :: rest)) ∧
    (send ⟨"rag/query_pdf_ai", question, top_k⟩ = .exc →
      send_rag_query_event question top_k send = .error .sendFailed) ∧
    (send ⟨"rag/query_pdf_ai", question, top_k⟩ = .acked [] →
      send_rag_query_event question top_k send = .error .indexError) := by
  refine ⟨?_, ?_, ?_⟩
  · intro eid
    rw [send_rag_query_event]
    cases hs : send ⟨"rag/query_pdf_ai", question, top_k⟩ with
    | exc => simp
    | acked ids =>
      cases ids with
      | nil => simp
      | cons a rest => simp [eq_comm]
  · intro hs
    rw [send_rag_query_event, hs]
  · intro hs
    rw [send_rag_query_event, hs]

/-- C8 witness: a submission acknowledging `["evt_1", "evt_2"]` returns
`evt_1`. -/
theorem c8_dispatch_first_ack_witness :
    send_rag_query_event "What?" 5 (fun _ => .acked ["evt_1", "evt_2"]) =
      .ok "evt_1" :=
  (((c8_dispatch_first_ack "What?" 5 (fun _ => .acked ["evt_1", "evt_2"])).1
      "evt_1").mpr ⟨["evt_2"], rfl⟩)

/-! ### Query form handler (lines 189-199) -/

/-- A character Python's `str.isspace()` (and hence `str.strip()`)
treats as whitespace: the ASCII whitespace run tab through carriage
return, the separator controls FS/GS/RS/US, the space, NEL, the
no-break space, the Ogham space mark, the Unicode spaces
U+2000-U+200A, the line and paragraph separators, the narrow no-break
space, the medium mathematical space and the ideographic space
(code points 9-13, 28-32, 0x85, 0xA0, 0x1680, 0x2000-0x200A, 0x2028,
0x2029, 0x202F, 0x205F, 0x3000). -/
def isPySpace (c : Char) : Bool :=
  let n := c.toNat
  (9 ≤ n && n ≤ 13) || (28 ≤ n && n ≤ 32) || n == 0x85 || n == 0xA0 ||
    n == 0x1680 || (0x2000 ≤ n && n ≤ 0x200A) || n == 0x2028 ||
    n == 0x2029 || n == 0x202F || n == 0x205F || n == 0x3000

/-- Python `str.strip()`: drop leading and trailing whitespace. -/
def pyStrip (s : String) : String :=
  ⟨((s.data.dropWhile isPySpace).reverse.dropWhile isPySpace).reverse⟩

/-- The `rag_query_form` submit handler (lines 194-196): when the form
was submitted and the stripped question is non-blank, dispatch the
query event built from `question.strip()` and `int(top_k)` (the
identity on the bounded integer number input); otherwise dispatch
nothing. -/
def rag_query_form_submit (submitted : Bool) (question : String)
    (top_k : Int) : Option QueryEvent :=
  if submitted && !(pyStrip question == "") then
    some ⟨"rag/query_pdf_ai", pyStrip question, top_k⟩
  else none

/-- C6 (amended): whenever the query form dispatches an event, the
question it carries — and hence the one whose run the poller then
waits on — is `question.strip()`, the entered text with surrounding
whitespace removed (identical to the entered text exactly when that
text is already stripped), together with the entered `topK`
unchanged. -/
theorem c6_dispatches_stripped_question (submitted : Bool) (question : String)
    (top_k : Int) (ev : QueryEvent) :
    rag_query_form_submit submitted question top_k = some ev →
    ev.name = "rag/query_pdf_ai" ∧
    ev.question = pyStrip question ∧
    ev.top_k = top_k ∧
    (ev.question = question ↔ pyStrip question = question) := by
  rw [rag_query_form_submit]
  by_cases h : (submitted && !(pyStrip question == "")) = true
  · rw [if_pos h]
    intro he
    obtain rfl : ev = ⟨"rag/query_pdf_ai", pyStrip question, top_k⟩ :=
      (Option.some.injEq .. ▸ he).symm
    exact ⟨rfl, rfl, rfl, Iff.rfl⟩
  · rw [if_neg h]
    intro he
    exact absurd he (by simp)

/-- C6 witness: the stripped form of `" What? "` is dispatched with the
entered `topK = 5`. -/
theorem c6_dispatches_stripped_question_witness :
    (⟨"rag/query_pdf_ai", "What?", 5⟩ : QueryEvent).name = "rag/query_pdf_ai" ∧
    (⟨"rag/query_pdf_ai", "What?", 5⟩ : QueryEvent).question = pyStrip " What? " ∧
    (⟨"rag/query_pdf_ai", "What?", 5⟩ : QueryEvent).top_k = 5 ∧
    ((⟨"rag/query_pdf_ai", "What?", 5⟩ : QueryEvent).question = " What? " ↔
      pyStrip " What? " = " What? ") :=
  c6_dispatches_stripped_question true " What? " 5
    ⟨"rag/query_pdf_ai", "What?", 5⟩ rfl

/-- C6 counterexample: the question `" What? "` (entered with
surrounding spaces) is dispatched as `"What?"`, not exactly as
entered. -/
theorem c6_question_not_as_entered_counterexample :
    rag_query_form_submit true " What? " 5 =
      some ⟨"rag/query_pdf_ai", "What?", 5⟩ ∧
    ("What?" : String) ≠ " What? " := by
  refine ⟨rfl, ?_⟩
  intro h
  exact absurd h (by decide)
